import Mathlib

/-!
Verification development for the AgoraWebhooks event-reconciliation engine.

The definitions below are a shallow embedding of the Python sources:
  - webhook_processor.py   (class WebhookProcessor: dedup cache, channel-epoch
    resolution, provisional merge, join/leave/role handlers, process_webhook)
  - database.py            (row types WebhookEvent, ChannelSession, RoleEvent)
  - models.py              (wire types WebhookPayload, WebhookRequest)
  - main.py                (calculate_role_minutes_from_events,
    calculate_max_concurrency)

Modelling conventions:
  - Python datetimes are modelled as unix seconds (Int); the code only ever
    builds them with datetime.fromtimestamp and compares/subtracts them, and
    stores integral second counts, so this is exact.
  - SQLAlchemy tables are lists in insertion order.  `.first()` with no
    order_by is the first matching row in insertion order; with
    `order_by(k.desc()).first()` it is the earliest-inserted row among those
    with maximal k (resp. minimal k for `asc()`), matching a stable sort.
  - The in-memory dedup set `recent_notice_ids` is a Python `set`, which has
    no specified iteration order.  It is modelled as the list of its elements
    in iteration order; `list(set)[0]` is the head of that list.  Where the
    iteration order matters (cache eviction) the theorems quantify over, or
    exhibit, admissible iteration orders.
  - Monetary/metrics aggregate tables (ChannelMetrics, UserMetrics) are
    written by _update_metrics and read by no function any claim mentions;
    they are not part of the DB model.
  - Python float minute arithmetic is modelled over the rationals.
-/

namespace Agora

/-! ## String helpers

The Python `str.split` on underscore, `int(...)` and the SQL provisional-suffix LIKE pattern are
modelled by structurally recursive functions over the character list so that
concrete runs reduce in the kernel. -/

/-- Character-list splitter replicating Python `str.split(sep)` for a
one-character separator: splitting a_b on the underscore gives [a, b], the
empty string gives one empty part, and a__b gives [a, empty, b]. -/
def charListSplit (sep : Char) : List Char → List (List Char)
  | [] => [[]]
  | c :: cs =>
    let r := charListSplit sep cs
    if c == sep then [] :: r
    else
      match r with
      | [] => [[c]]
      | h :: t => (c :: h) :: t

/-- Python split on underscore for a String. -/
def splitUnderscore (s : String) : List String :=
  (charListSplit (Char.ofNat 95) s.data).map (fun cs => String.mk cs)

/-- Decimal digit value of a character, if any. -/
def digitVal (c : Char) : Option Nat :=
  if c == Char.ofNat 48 then some 0
  else if c == Char.ofNat 49 then some 1
  else if c == Char.ofNat 50 then some 2
  else if c == Char.ofNat 51 then some 3
  else if c == Char.ofNat 52 then some 4
  else if c == Char.ofNat 53 then some 5
  else if c == Char.ofNat 54 then some 6
  else if c == Char.ofNat 55 then some 7
  else if c == Char.ofNat 56 then some 8
  else if c == Char.ofNat 57 then some 9
  else none

/-- Parse a non-empty list of decimal digits. -/
def digitsToNat : List Char → Option Nat
  | [] => none
  | cs =>
    cs.foldl
      (fun acc c =>
        match acc, digitVal c with
        | some n, some d => some (n * 10 + d)
        | _, _ => none)
      (some 0)

/-- Python `int(s)` restricted to optionally-signed decimal literals (the only
strings the processor ever feeds it are the timestamp components of session
ids); anything else raises ValueError, modelled as `none`. -/
def parseIntStr (s : String) : Option Int :=
  match s.data with
  | [] => none
  | c :: cs =>
    if c == Char.ofNat 45 then (digitsToNat cs).map (fun n => -(n : Int))
    else (digitsToNat (c :: cs)).map (fun n => (n : Int))

/-- SQL LIKE matching of the provisional suffix on a nullable column, as the
processor uses it: the ids it matches are exactly those built with the
`_provisional` suffix. -/
def likeProvisional (csid : Option String) : Bool :=
  match csid with
  | none => false
  | some s => List.isSuffixOf ("_provisional".data) s.data

/-! ## List/query helpers (SQL determinization) -/

/-- `order_by(k.desc()).first()`: earliest-inserted element with maximal key. -/
def firstMaxBy {α : Type} (key : α → Int) (l : List α) : Option α :=
  l.foldl
    (fun acc x =>
      match acc with
      | none => some x
      | some b => if key b < key x then some x else some b)
    none

/-- `order_by(k.asc()).first()`: earliest-inserted element with minimal key. -/
def firstMinBy {α : Type} (key : α → Int) (l : List α) : Option α :=
  l.foldl
    (fun acc x =>
      match acc with
      | none => some x
      | some b => if key x < key b then some x else some b)
    none

/-- Index of the earliest-inserted element satisfying `p` with maximal key
(`filter(p).order_by(k.desc()).first()`, positionally). -/
def firstMaxIdxBy {α : Type} (key : α → Int) (p : α → Bool) (l : List α) : Option Nat :=
  (l.enum.filter (fun ix => p ix.2)).foldl
    (fun acc ix =>
      match acc with
      | none => some ix
      | some b => if key b.2 < key ix.2 then some ix else some b)
    none |>.map Prod.fst

/-- Replace the element at index `i` (no-op when out of range); ORM row
mutation through an identity map. -/
def updateAt {α : Type} (l : List α) (i : Nat) (f : α → α) : List α :=
  match l.get? i with
  | some x => l.set i (f x)
  | none => l

/-! ## Data model (models.py, database.py) -/

/-- models.py WebhookPayload.  The `account` field is referenced by
webhook_processor.py and export_service.py but absent from the snapshot files
models.py/database.py.  Modelled from the spec: the data-model section lists
`account` among the presence-session fields carried by the payload. -/
structure WebhookPayload where
  channelName : String
  ts : Int
  clientSeq : Option Int
  uid : Option Int
  platform : Option Int
  reason : Option Int
  duration : Option Int
  clientType : Option Int
  account : Option String
deriving Repr, DecidableEq

/-- models.py WebhookRequest. -/
structure WebhookRequest where
  noticeId : String
  productId : Int
  eventType : Int
  notifyMs : Option Int
  sid : Option String
  payload : WebhookPayload
deriving Repr, DecidableEq

/-- database.py WebhookEvent (raw event log row). -/
structure WebhookEvent where
  appId : String
  noticeId : String
  productId : Int
  eventType : Int
  channelName : String
  uid : Int
  clientSeq : Int
  platform : Option Int
  reason : Option Int
  clientType : Option Int
  ts : Int
  duration : Option Int
  channelSessionId : Option String
  rawPayload : String
deriving Repr, DecidableEq

/-- database.py ChannelSession (presence-session row).  `account` is modelled
from the spec (see WebhookPayload).  The `created_at`/`updated_at` metadata
and quality columns never read by the modelled code are omitted. -/
structure ChannelSession where
  appId : String
  channelName : String
  uid : Int
  channelSessionId : Option String
  sid : Option String
  joinTime : Int
  leaveTime : Option Int
  durationSeconds : Option Int
  lastClientSeq : Option Int
  productId : Option Int
  platform : Option Int
  reason : Option Int
  clientType : Option Int
  communicationMode : Option Int
  roleSwitches : Int
  isHost : Bool
  account : Option String
deriving Repr, DecidableEq

/-- database.py RoleEvent (role-change row). -/
structure RoleEvent where
  appId : String
  channelName : String
  channelSessionId : Option String
  uid : Int
  ts : Int
  newRole : Int
deriving Repr, DecidableEq

/-- The committed store: three tables in insertion order. -/
structure DB where
  events : List WebhookEvent
  sessions : List ChannelSession
  roleEvents : List RoleEvent
deriving Repr, DecidableEq

/-- The in-memory state of the processor plus the committed store.
`recentNoticeIds` is the dedup set in iteration order;
`activeChannelSessions` is the dict `{app_id:channel_name -> id}`. -/
structure ProcessorState where
  db : DB
  recentNoticeIds : List String
  activeChannelSessions : List (String × String)
deriving Repr, DecidableEq

/-- Outcome of one process_webhook call: normal return after commit, early
return for a duplicate, or an exception propagated after rollback. -/
inductive ProcessResult where
  | accepted
  | duplicate
  | failed
deriving Repr, DecidableEq

/-! ## Truthiness helpers (Python `or` / `if x:`) -/

/-- Python `x or 0` on an optional int column value. -/
def pyIntOr0 (o : Option Int) : Int :=
  match o with
  | none => 0
  | some v => if v == 0 then 0 else v

/-- Python truthiness of an optional int (`if x:`): None and 0 are falsy. -/
def truthyInt (o : Option Int) : Bool :=
  match o with
  | none => false
  | some v => !(v == 0)

/-- Python truthiness of an optional string (`if x:`): None and "" are falsy. -/
def truthyStr (o : Option String) : Bool :=
  match o with
  | none => false
  | some s => !(s == "")

/-! ## Dedup cache (webhook_processor.py _is_duplicate_webhook, _add_to_cache) -/

/-- WebhookProcessor.max_cache_size. -/
def maxCacheSize : Nat := 10

/-- Embeds _is_duplicate_webhook: in-memory set membership, then a store lookup on
notice_id. -/
def isDuplicateWebhook (st : ProcessorState) (noticeId : String) : Bool :=
  st.recentNoticeIds.contains noticeId ||
    st.db.events.any (fun e => e.noticeId == noticeId)

/-- Embeds _add_to_cache over the iteration order of the set: when the set is at capacity
the code removes `list(set)[0]`, the head of the iteration order (which Python
does not relate to insertion order), then adds the new id. The position a
newly added element takes in a future iteration is likewise unspecified;
appending is one admissible order, and no modelled behaviour other than
eviction depends on the position. -/
def addToCache (cache : List String) (noticeId : String) : List String :=
  let c := if maxCacheSize ≤ cache.length then cache.tail else cache
  if c.contains noticeId then c else c ++ [noticeId]

/-! ## Channel-epoch resolution (webhook_processor.py
_get_channel_session_id_for_event and _merge_provisional_sessions) -/

/-- Timestamp component of a provisional session id:
`int(session_parts[-2])` after the underscore split when there are at least 3 parts. -/
def parseProvTs (sid : String) : Option Int :=
  let parts := splitUnderscore sid
  if 3 ≤ parts.length then
    match parts.get? (parts.length - 2) with
    | some p => parseIntStr p
    | none => none
  else none

/-- A channel-destroy (102) event strictly between two instants, as checked
before reusing a provisional epoch. -/
def destroyStrictlyBetween (db : DB) (app ch : String) (lo hi : Int) : Bool :=
  db.events.any (fun e =>
    e.appId == app && e.channelName == ch && e.eventType == 102 &&
      decide (lo < e.ts) && decide (e.ts < hi))

/-- Final fallback of the resolution ladder: allocate a fresh provisional id. -/
def resolveNewProvisional (app ch : String) (ts : Int) : String :=
  app ++ "_" ++ ch ++ "_" ++ toString ts ++ "_provisional"

/-- Ladder step: reuse the earliest provisional ChannelSession row for the
channel (order_by join_time asc), unless a destroy intervened between its
encoded timestamp and this event. -/
def resolveProvSessions (db : DB) (app ch : String) (ts : Int) : String :=
  let provSess := db.sessions.filter (fun s =>
    s.appId == app && s.channelName == ch && likeProvisional s.channelSessionId)
  match firstMinBy (fun s => s.joinTime) provSess with
  | none => resolveNewProvisional app ch ts
  | some es =>
    match es.channelSessionId with
    | none => resolveNewProvisional app ch ts
    | some pid =>
      match parseProvTs pid with
      | none => pid
      | some pts =>
        if destroyStrictlyBetween db app ch pts ts then resolveNewProvisional app ch ts
        else pid

/-- Ladder step: reuse the latest provisional raw-event row at or before `ts`
(order_by ts desc), unless a destroy intervened; the code also skips it when
the stored id is falsy. -/
def resolveProvEvents (db : DB) (app ch : String) (ts : Int) : String :=
  let provEvts := db.events.filter (fun e =>
    e.appId == app && e.channelName == ch && likeProvisional e.channelSessionId &&
      decide (e.ts ≤ ts))
  match firstMaxBy (fun e => e.ts) provEvts with
  | none => resolveProvSessions db app ch ts
  | some pe =>
    match pe.channelSessionId with
    | none => resolveProvSessions db app ch ts
    | some pid =>
      if pid == "" then resolveProvSessions db app ch ts
      else
        match parseProvTs pid with
        | none => pid
        | some pts =>
          if destroyStrictlyBetween db app ch pts ts then resolveProvSessions db app ch ts
          else pid

/-- Ladder step for a destroy at exactly this timestamp: label with the most
recent earlier create.  The further sid-comparison backup of the code dereferences
`webhook_data.raw_payload`, an attribute WebhookRequest does not define, so
that branch always raises AttributeError into its `except` and falls through. -/
def resolveSameTs (db : DB) (app ch : String) (ts : Int) : String :=
  match db.events.find? (fun e =>
      e.appId == app && e.channelName == ch && e.eventType == 102 && e.ts == ts) with
  | none => resolveProvEvents db app ch ts
  | some _ =>
    let creates := db.events.filter (fun e =>
      e.appId == app && e.channelName == ch && e.eventType == 101 && decide (e.ts < ts))
    match firstMaxBy (fun e => e.ts) creates with
    | some cb => app ++ "_" ++ ch ++ "_" ++ toString cb.ts
    | none => resolveProvEvents db app ch ts

/-- Ladder step for leave events only: a (create, destroy) pair enclosing the
leave labels it with the epoch of that create. -/
def resolveLeave (db : DB) (app ch : String) (et ts : Int) : String :=
  if et == 104 || et == 106 || et == 108 then
    let creates := db.events.filter (fun e =>
      e.appId == app && e.channelName == ch && e.eventType == 101 && decide (e.ts ≤ ts))
    match firstMaxBy (fun e => e.ts) creates with
    | some ce =>
      match db.events.find? (fun e =>
          e.appId == app && e.channelName == ch && e.eventType == 102 &&
            decide (ce.ts < e.ts) && decide (e.ts ≤ ts)) with
      | some _ => app ++ "_" ++ ch ++ "_" ++ toString ce.ts
      | none => resolveSameTs db app ch ts
    | none => resolveSameTs db app ch ts
  else resolveSameTs db app ch ts

/-- User-event resolution ladder with no active-epoch entry: newest
undestroyed create at or before `ts`, then the leave, same-timestamp,
provisional-event and provisional-session steps, else a fresh provisional. -/
def resolveUserEventCsid (db : DB) (app ch : String) (et ts : Int) : String :=
  let creates := db.events.filter (fun e =>
    e.appId == app && e.channelName == ch && e.eventType == 101 && decide (e.ts ≤ ts))
  match firstMaxBy (fun e => e.ts) creates with
  | some ce =>
    match db.events.find? (fun e =>
        e.appId == app && e.channelName == ch && e.eventType == 102 &&
          decide (ce.ts < e.ts) && decide (e.ts ≤ ts)) with
    | none => app ++ "_" ++ ch ++ "_" ++ toString ce.ts
    | some _ => resolveLeave db app ch et ts
  | none => resolveLeave db app ch et ts

/-- Active-epoch dict lookup. -/
def assocGet (m : List (String × String)) (k : String) : Option String :=
  (m.find? (fun p => p.1 == k)).map Prod.snd

/-- Active-epoch dict insert/overwrite. -/
def assocSet (m : List (String × String)) (k v : String) : List (String × String) :=
  if m.any (fun p => p.1 == k) then m.map (fun p => if p.1 == k then (k, v) else p)
  else m ++ [(k, v)]

/-- Active-epoch dict delete (`del`, tolerating absence through the preceding
membership check as the code does). -/
def assocDel (m : List (String × String)) (k : String) : List (String × String) :=
  m.filter (fun p => !(p.1 == k))

/-- Embeds _merge_provisional_sessions.  Relabels provisional ChannelSession rows of
the epoch `[create_ts, end_ts)` — plus, when a later create exists, rows in
`[previous_destroy_ts, create_ts)` — to `correctId`, then (only when at least
one such session existed) relabels provisional RoleEvent rows with
`create_ts ≤ ts < end_ts`.  Returns the new store and whether anything was
committed mid-call.  `now` stands for `int(time.time())`. -/
def mergeProvisionalSessions (db : DB) (app ch correctId : String) (now : Int) :
    DB × Bool :=
  let parts := splitUnderscore correctId
  if 3 ≤ parts.length then
    match parts.getLast? with
    | none => (db, false)
    | some lastPart =>
      match parseIntStr lastPart with
      | none => (db, false)
      | some createTs =>
        let nextCreate := firstMinBy (fun e => e.ts)
          (db.events.filter (fun e =>
            e.appId == app && e.channelName == ch && e.eventType == 101 &&
              decide (createTs < e.ts)))
        let endTs := match nextCreate with | some nc => nc.ts | none => now + 3600
        let basePred := fun (s : ChannelSession) =>
          s.appId == app && s.channelName == ch && likeProvisional s.channelSessionId &&
            decide (createTs ≤ s.joinTime) && decide (s.joinTime < endTs)
        let latePred : ChannelSession → Bool :=
          match nextCreate with
          | none => fun _ => false
          | some _ =>
            match firstMaxBy (fun e => e.ts)
                (db.events.filter (fun e =>
                  e.appId == app && e.channelName == ch && e.eventType == 102 &&
                    decide (e.ts < createTs))) with
            | none => fun _ => false
            | some pd => fun s =>
              s.appId == app && s.channelName == ch && likeProvisional s.channelSessionId &&
                decide (pd.ts ≤ s.joinTime) && decide (s.joinTime < createTs)
        let pred := fun s => basePred s || latePred s
        if db.sessions.any pred then
          let sessions := db.sessions.map (fun s =>
            if pred s then { s with channelSessionId := some correctId } else s)
          let roleEvents := db.roleEvents.map (fun re =>
            if re.appId == app && re.channelName == ch &&
                likeProvisional re.channelSessionId &&
                decide (createTs ≤ re.ts) && decide (re.ts < endTs)
            then { re with channelSessionId := some correctId } else re)
          ({ db with sessions := sessions, roleEvents := roleEvents }, true)
        else (db, false)
  else (db, false)

/-- Embeds _get_channel_session_id_for_event: lifecycle events open/close the active
epoch (101 also runs the provisional merge); user events use the active entry
or the resolution ladder, setting the active entry to the resolved id; other
event types yield None.  Returns (resolved id, active map, store, whether the
merge committed). -/
def getCsidForEvent (db : DB) (active : List (String × String)) (app : String)
    (w : WebhookRequest) (now : Int) :
    Option String × List (String × String) × DB × Bool :=
  let ch := w.payload.channelName
  let et := w.eventType
  let ts := w.payload.ts
  let key := app ++ ":" ++ ch
  if et == 101 then
    let callId := app ++ "_" ++ ch ++ "_" ++ toString ts
    let active1 := assocSet active key callId
    let m := mergeProvisionalSessions db app ch callId now
    (some callId, active1, m.1, m.2)
  else if et == 102 then
    (assocGet active key, assocDel active key, db, false)
  else if [103, 104, 105, 106, 107, 108, 111, 112].contains et then
    match assocGet active key with
    | some cid => (some cid, active, db, false)
    | none =>
      let callId := resolveUserEventCsid db app ch et ts
      (some callId, assocSet active key callId, db, false)
  else (none, active, db, false)

/-! ## Raw-event persistence (_store_webhook_event) -/

/-- The WebhookEvent row built by _store_webhook_event: `uid` and
`client_seq` columns take `payload.uid or 0` / `payload.clientSeq or 0`. -/
def mkWebhookEvent (app : String) (w : WebhookRequest) (raw : String)
    (csid : Option String) : WebhookEvent :=
  { appId := app
    noticeId := w.noticeId
    productId := w.productId
    eventType := w.eventType
    channelName := w.payload.channelName
    uid := pyIntOr0 w.payload.uid
    clientSeq := pyIntOr0 w.payload.clientSeq
    platform := w.payload.platform
    reason := w.payload.reason
    clientType := w.payload.clientType
    ts := w.payload.ts
    duration := w.payload.duration
    channelSessionId := csid
    rawPayload := raw }

/-! ## User-event handlers (_handle_user_join, _handle_user_leave,
_handle_role_change) -/

/-- Stable ascending sort of RoleEvents by ts (Python list.sort with the ts key). -/
def sortRoleEventsByTs (l : List RoleEvent) : List RoleEvent :=
  List.insertionSort (fun a b => a.ts ≤ b.ts) l

/-- Embeds _handle_user_join.  An open session for (app, channel, epoch, uid) is the
first matching row.  With one, `client_seq <= last_client_seq` compares an int
against the column value; a NULL value raises TypeError (modelled as `.error`),
otherwise a stale event returns unchanged and a live one refreshes join_time
(both the earlier-join and the reconnection branch assign the new time) and
then records last_client_seq.  With none, a new open session is created with
the role derived from the event type and any queued role events with
`ts >= join_ts` for this epoch (or its `_provisional` sibling) are applied in
ascending ts order; last_client_seq of the new row is never assigned. -/
def handleUserJoin (db : DB) (app : String) (w : WebhookRequest)
    (csid : Option String) : Except Unit DB :=
  let joinTime := w.payload.ts
  let uid := (w.payload.uid).getD 0
  let ch := w.payload.channelName
  let clientSeq := (w.payload.clientSeq).getD 0
  match db.sessions.findIdx? (fun s =>
      s.appId == app && s.channelName == ch && s.channelSessionId == csid &&
        s.uid == uid && s.leaveTime == none) with
  | some i =>
    match db.sessions.get? i with
    | none => Except.ok db
    | some s =>
      match s.lastClientSeq with
      | none => Except.error ()
      | some lastSeq =>
        if clientSeq ≤ lastSeq then Except.ok db
        else
          let s1 :=
            if joinTime < s.joinTime then
              { s with joinTime := joinTime
                       account := if truthyStr w.payload.account then w.payload.account
                                  else s.account }
            else
              { s with joinTime := joinTime
                       account := if truthyStr w.payload.account then w.payload.account
                                  else s.account }
          let s2 := { s1 with lastClientSeq := some clientSeq }
          Except.ok { db with sessions := db.sessions.set i s2 }
  | none =>
    let et := w.eventType
    let isHost := et == 103 || et == 107
    let communicationMode : Int := if et == 107 then 1 else 0
    let newSession : ChannelSession :=
      { appId := app
        channelName := ch
        uid := uid
        channelSessionId := csid
        sid := w.sid
        joinTime := joinTime
        leaveTime := none
        durationSeconds := none
        lastClientSeq := none
        productId := some w.productId
        platform := w.payload.platform
        reason := w.payload.reason
        clientType := w.payload.clientType
        communicationMode := some communicationMode
        roleSwitches := 0
        isHost := isHost
        account := w.payload.account }
    let provSibling : Option String :=
      some ((match csid with | some s => s | none => "None") ++ "_provisional")
    let pending := sortRoleEventsByTs (db.roleEvents.filter (fun re =>
      re.appId == app && re.channelName == ch && re.uid == uid &&
        decide (joinTime ≤ re.ts) &&
        (re.channelSessionId == csid || re.channelSessionId == provSibling)))
    let finalSession := pending.foldl
      (fun s re => { s with isHost := re.newRole == 111, roleSwitches := s.roleSwitches + 1 })
      newSession
    Except.ok { db with sessions := db.sessions ++ [finalSession] }

/-- Embeds _handle_user_leave.  The newest open session for (app, channel, uid)
(order_by join_time desc) is closed at ts: an impossible ordering rewinds
join_time to ts − duration first, then duration_seconds, reason and account
are recorded.  Without one, a truthy payload duration synthesizes a closed
session (the role test uses the join event codes, which never match a leave
code, so is_host is False and communication_mode 0); otherwise the leave is
dropped. -/
def handleUserLeave (db : DB) (app : String) (w : WebhookRequest)
    (csid : Option String) : DB :=
  let leaveTime := w.payload.ts
  let uid := (w.payload.uid).getD 0
  let ch := w.payload.channelName
  match firstMaxIdxBy (fun s => s.joinTime)
      (fun s => s.appId == app && s.channelName == ch && s.uid == uid &&
        s.leaveTime == none) db.sessions with
  | some i =>
    let f := fun (s : ChannelSession) =>
      let s0 := if truthyStr w.sid && !(truthyStr s.sid) then { s with sid := w.sid } else s
      let s1 :=
        if leaveTime < s0.joinTime then
          { s0 with joinTime := leaveTime - (w.payload.duration).getD 0 }
        else s0
      { s1 with
          leaveTime := some leaveTime
          durationSeconds := some (leaveTime - s1.joinTime)
          reason := w.payload.reason
          account := if truthyStr w.payload.account then w.payload.account else s1.account }
    { db with sessions := updateAt db.sessions i f }
  | none =>
    if truthyInt w.payload.duration then
      let d := (w.payload.duration).getD 0
      let et := w.eventType
      let isHost := et == 103 || et == 107
      let communicationMode : Int := if et == 107 then 1 else 0
      let session : ChannelSession :=
        { appId := app
          channelName := ch
          uid := uid
          channelSessionId := csid
          sid := w.sid
          joinTime := leaveTime - d
          leaveTime := some leaveTime
          durationSeconds := some d
          lastClientSeq := none
          productId := some w.productId
          platform := w.payload.platform
          reason := w.payload.reason
          clientType := w.payload.clientType
          communicationMode := some communicationMode
          roleSwitches := 0
          isHost := isHost
          account := w.payload.account }
      { db with sessions := db.sessions ++ [session] }
    else db

/-- Index of the open session a role change targets: exact
(app, channel, epoch, uid) first, else the newest open (app, channel, uid)
session (order_by join_time desc). -/
def roleTargetIdx (db : DB) (app ch : String) (csid : Option String) (uid : Int) :
    Option Nat :=
  match db.sessions.findIdx? (fun s =>
      s.appId == app && s.channelName == ch && s.channelSessionId == csid &&
        s.uid == uid && s.leaveTime == none) with
  | some i => some i
  | none =>
    firstMaxIdxBy (fun s => s.joinTime)
      (fun s => s.appId == app && s.channelName == ch && s.uid == uid &&
        s.leaveTime == none) db.sessions

/-- Embeds _handle_role_change: append one RoleEvent row (new_role stores the raw
event code), then, if an open session is found, set is_host from the code and
bump role_switches, leaving every other column alone. -/
def handleRoleChange (db : DB) (app : String) (w : WebhookRequest)
    (csid : Option String) : DB :=
  let uid := (w.payload.uid).getD 0
  let ch := w.payload.channelName
  let et := w.eventType
  let isHost := et == 111
  let re : RoleEvent :=
    { appId := app
      channelName := ch
      channelSessionId := csid
      uid := uid
      ts := w.payload.ts
      newRole := et }
  let db1 := { db with roleEvents := db.roleEvents ++ [re] }
  match roleTargetIdx db1 app ch csid uid with
  | some i =>
    { db1 with sessions := updateAt db1.sessions i (fun s =>
        { s with isHost := isHost, roleSwitches := s.roleSwitches + 1 }) }
  | none => db1

/-- Embeds _process_event_by_type: user handlers require both uid and clientSeq,
else the session tables are left alone. -/
def processEventByType (db : DB) (app : String) (w : WebhookRequest)
    (csid : Option String) : Except Unit DB :=
  if (w.payload.uid).isSome && (w.payload.clientSeq).isSome then
    if [103, 105, 107].contains w.eventType then handleUserJoin db app w csid
    else if [104, 106, 108].contains w.eventType then
      Except.ok (handleUserLeave db app w csid)
    else if [111, 112].contains w.eventType then
      Except.ok (handleRoleChange db app w csid)
    else Except.ok db
  else Except.ok db

/-- process_webhook.  Duplicates return early with no mutation.  Otherwise the
notice id is cached, the epoch resolved (possibly committing a provisional
merge), the raw row staged, and the typed handler run; success commits
everything, while an exception rolls the store back to the last commit point —
the cache addition and active-map changes are not undone.  The _update_metrics
pass only rewrites the aggregate tables outside this model and raises nothing.
`raw` is the request body stored verbatim; `now` stands for time.time(). -/
def processWebhook (st : ProcessorState) (app : String) (w : WebhookRequest)
    (raw : String) (now : Int) : ProcessorState × ProcessResult :=
  if isDuplicateWebhook st w.noticeId then (st, ProcessResult.duplicate)
  else
    let cache1 := addToCache st.recentNoticeIds w.noticeId
    let r := getCsidForEvent st.db st.activeChannelSessions app w now
    let csid := r.1
    let active1 := r.2.1
    let db1 := r.2.2.1
    let committed := if r.2.2.2 then r.2.2.1 else st.db
    let db2 := { db1 with events := db1.events ++ [mkWebhookEvent app w raw csid] }
    match processEventByType db2 app w csid with
    | Except.ok db3 =>
      ({ db := db3, recentNoticeIds := cache1, activeChannelSessions := active1 },
        ProcessResult.accepted)
    | Except.error _ =>
      ({ db := committed, recentNoticeIds := cache1, activeChannelSessions := active1 },
        ProcessResult.failed)

/-- Fold a batch of notifications through process_webhook, keeping the final
state (the per-call results are recomputable from the prefixes). -/
def processAll (st : ProcessorState) (app : String)
    (items : List (WebhookRequest × String)) (now : Int) : ProcessorState :=
  items.foldl (fun s it => (processWebhook s app it.1 it.2 now).1) st

/-- The empty processor: fresh store, empty cache and active map. -/
def initState : ProcessorState :=
  { db := { events := [], sessions := [], roleEvents := [] }
    recentNoticeIds := []
    activeChannelSessions := [] }

/-! ## Role-interval attribution (main.py calculate_role_minutes_from_events) -/

/-- The uids of a session list, in order of first appearance (the iteration
order of the Python grouping dict). -/
def uidsInOrder (sessions : List ChannelSession) : List Int :=
  sessions.foldl (fun acc s => if acc.contains s.uid then acc else acc ++ [s.uid]) []

/-- Initial-role precedence: a join webhook row within five seconds of the
join (order_by ts asc, when a store handle was passed), else the opposite of
the first in-session role event, else the own is_host flag of the session.  Returns
whether the initial role is host. -/
def initialRoleIsHost (dbEvents : Option (List WebhookEvent)) (s : ChannelSession)
    (channelSessionId : String) (joinTs : Int) (sre : List RoleEvent) : Bool :=
  let fromJoin : Option Bool :=
    match dbEvents with
    | none => none
    | some evts =>
      match firstMinBy (fun e => e.ts) (evts.filter (fun e =>
          e.appId == s.appId && e.channelName == s.channelName &&
            e.channelSessionId == some channelSessionId && e.uid == s.uid &&
            [103, 105, 107].contains e.eventType &&
            decide (joinTs - 5 ≤ e.ts) && decide (e.ts ≤ joinTs + 5))) with
      | some je => some ([103, 107].contains je.eventType)
      | none => none
  match fromJoin with
  | some b => b
  | none =>
    match sre.head? with
    | some fe => !(fe.newRole == 111)
    | none => s.isHost

/-- Segment walk of one session: before each role event the elapsed span since
`lastTs` is credited to the current role (when positive), then the role flips
to the target of the event; the tail span up to leave is credited last.  The
accumulator is (host_minutes, audience_minutes). -/
def walkSegments (leaveTs : Int) : List RoleEvent → Int → Bool → ℚ × ℚ → ℚ × ℚ
  | [], lastTs, curHost, acc =>
    if lastTs < leaveTs then
      if curHost then (acc.1 + ((leaveTs - lastTs : Int) : ℚ) / 60, acc.2)
      else (acc.1, acc.2 + ((leaveTs - lastTs : Int) : ℚ) / 60)
    else acc
  | re :: rest, lastTs, curHost, acc =>
    let step :=
      if lastTs < re.ts then
        (re.ts,
          if curHost then (acc.1 + ((re.ts - lastTs : Int) : ℚ) / 60, acc.2)
          else (acc.1, acc.2 + ((re.ts - lastTs : Int) : ℚ) / 60))
      else (lastTs, acc)
    walkSegments leaveTs rest step.1 (re.newRole == 111) step.2

/-- Host/audience minutes contributed by one session: incomplete sessions
contribute nothing; without in-session role events the whole
`duration_seconds or 0` goes to the initial role; otherwise the segment walk
runs from join to leave. -/
def sessionRoleMinutes (dbEvents : Option (List WebhookEvent))
    (channelSessionId : String) (userRoleEvents : List RoleEvent)
    (s : ChannelSession) : ℚ × ℚ :=
  match s.leaveTime with
  | none => (0, 0)
  | some leaveTs =>
    let joinTs := s.joinTime
    let sre := userRoleEvents.filter (fun re =>
      decide (joinTs ≤ re.ts) && decide (re.ts ≤ leaveTs))
    let isHost0 := initialRoleIsHost dbEvents s channelSessionId joinTs sre
    if sre.isEmpty then
      let dm : ℚ := ((pyIntOr0 s.durationSeconds : Int) : ℚ) / 60
      if isHost0 then (dm, 0) else (0, dm)
    else walkSegments leaveTs sre joinTs isHost0 (0, 0)

/-- calculate_role_minutes_from_events: group sessions by uid, sort the per-uid
role events for this epoch by ts, and accumulate per-session host/audience
minutes. -/
def calculateRoleMinutesFromEvents (sessions : List ChannelSession)
    (roleEvents : List RoleEvent) (channelSessionId : String)
    (dbEvents : Option (List WebhookEvent)) : ℚ × ℚ :=
  (uidsInOrder sessions).foldl
    (fun acc uid =>
      let userSessions := sessions.filter (fun s => s.uid == uid)
      let userRoleEvents := sortRoleEventsByTs (roleEvents.filter (fun re =>
        re.uid == uid && re.channelSessionId == some channelSessionId))
      userSessions.foldl
        (fun acc2 s =>
          let hm := sessionRoleMinutes dbEvents channelSessionId userRoleEvents s
          (acc2.1 + hm.1, acc2.2 + hm.2))
        acc)
    (0, 0)

/-! ## Max concurrency (main.py calculate_max_concurrency) -/

/-- The (is_join, ts, uid) events of one session: the join (join_time is a
non-null column, hence always truthy) followed by the leave when present. -/
def concEventsOf (s : ChannelSession) : List (Bool × Int × Int) :=
  (true, s.joinTime, s.uid) ::
    (match s.leaveTime with
     | some lt => [(false, lt, s.uid)]
     | none => [])

/-- Event list of calculate_max_concurrency, session by session in input
order. -/
def concEvents (sessions : List ChannelSession) : List (Bool × Int × Int) :=
  sessions.foldl
    (fun acc s =>
      let acc1 := acc ++ [(true, s.joinTime, s.uid)]
      match s.leaveTime with
      | some lt => acc1 ++ [(false, lt, s.uid)]
      | none => acc1)
    []

/-- The stable Python sort of events by their timestamp component. -/
def sortConcEvents (l : List (Bool × Int × Int)) : List (Bool × Int × Int) :=
  List.insertionSort (fun a b => a.2.1 ≤ b.2.1) l

/-- The sweep of calculate_max_concurrency: `active_users` is a uid set
(joins insert, leaves discard), each event appends (ts, |active|) to the
curve, and a strictly larger count moves the running max and peak time. -/
def sweepGo (active : List Int) (mx : Nat) (peak : Option Int) :
    List (Bool × Int × Int) → Nat × Option Int × List (Int × Nat)
  | [] => (mx, peak, [])
  | e :: rest =>
    let active1 :=
      if e.1 then (if active.contains e.2.2 then active else active ++ [e.2.2])
      else active.erase e.2.2
    let c := active1.length
    let mp := if mx < c then (c, some e.2.1) else (mx, peak)
    let r := sweepGo active1 mp.1 mp.2 rest
    (r.1, r.2.1, (e.2.1, c) :: r.2.2)

/-- calculate_max_concurrency: returns (max concurrent users, peak ts, step
curve); empty inputs short-circuit. -/
def calculateMaxConcurrency (sessions : List ChannelSession) :
    Nat × Option Int × List (Int × Nat) :=
  if sessions.isEmpty then (0, none, [])
  else
    let evs := concEvents sessions
    if evs.isEmpty then (0, none, [])
    else sweepGo [] 0 none (sortConcEvents evs)

/-- The concurrency count in the words of the spec (spec wording, for comparison with
the sweep): the number of sessions with `join ≤ ts < leave`. -/
def specConcurrencyCount (sessions : List ChannelSession) (t : Int) : Nat :=
  (sessions.filter (fun s =>
    decide (s.joinTime ≤ t) &&
      (match s.leaveTime with
       | some lt => decide (t < lt)
       | none => false))).length

/-! ## Concrete notifications used by the scenario theorems -/

/-- A notification for channel "c" with the given id, type, timestamp and
optional uid/clientSeq/duration. -/
def mkReq (nid : String) (et ts : Int) (uid cseq dur : Option Int) : WebhookRequest :=
  { noticeId := nid
    productId := 1
    eventType := et
    notifyMs := none
    sid := none
    payload :=
      { channelName := "c"
        ts := ts
        clientSeq := cseq
        uid := uid
        platform := some 1
        reason := some 1
        duration := dur
        clientType := none
        account := none } }

/-- Scenario: leave 104(uid 3, ts 200, seq 2, duration 30) then join
103(uid 3, ts 170, seq 1). -/
def outOfOrderState : ProcessorState :=
  processAll initState "a"
    [(mkReq "d1" 104 200 (some 3) (some 2) (some 30), "p1"),
     (mkReq "d2" 103 170 (some 3) (some 1) none, "p2")] 1000

/-- Claim C1 (counterexample): after ingesting 104(uid=3, ts=200, seq=2,
duration=30) then 103(uid=3, ts=170, seq=1), the store holds two presence
sessions for uid 3, not exactly one — the join matches only open sessions, so
it cannot see the closed session the leave synthesized and creates a second
one. -/
theorem c1_counterexample :
    ¬ (outOfOrderState.db.sessions.filter (fun s => s.uid == 3)).length = 1 := by
  decide

/-- Claim C1 (amended): after ingesting, in order, the leave 104(uid=3,
ts=200, seq=2, duration=30) and the join 103(uid=3, ts=170, seq=1), the store
contains exactly two presence sessions for uid 3: a closed one synthesized by
the leave with join_time=170, leave_time=200, duration_seconds=30, and an open
one created by the join with join_time=170 and no leave_time or duration. -/
theorem c1_amended :
    outOfOrderState.db.sessions.map
        (fun s => (s.uid, s.joinTime, s.leaveTime, s.durationSeconds)) =
      [(3, 170, some 200, some 30), (3, 170, none, none)] := by
  decide

/-- Scenario: role change 111(uid 5, ts 150, seq 1) with no prior create, then
the channel create 101(ts 100). -/
def orphanRoleState : ProcessorState :=
  processAll initState "a"
    [(mkReq "r1" 111 150 (some 5) (some 1) none, "q1"),
     (mkReq "c1" 101 100 none none none, "q2")] 500

/-- Claim C2 (violation): after the create at ts 100 has been ingested, with
no later create (so the epoch is unbounded above), the role-event row at
ts 150 ∈ [100, ∞) still carries a channel_session_id with the _provisional
suffix — the merge relabels role events only when at least one provisional
session row was found, and here there is none. -/
theorem c2_failing :
    orphanRoleState.db.roleEvents.map (fun re => (re.ts, re.channelSessionId)) =
        [(150, some "a_c_150_provisional")] ∧
      likeProvisional (some "a_c_150_provisional") = true ∧
      orphanRoleState.db.events.any
        (fun e => e.eventType == 101 && e.ts == 100) = true ∧
      orphanRoleState.db.events.all
        (fun e => !(e.eventType == 101 && decide (100 < e.ts))) = true := by
  decide

/-- Scenario: 101(ts 100), 102(ts 200), orphan 105(uid 4, ts 250), 101(ts 400),
then the out-of-order 101(ts 300) whose merge sees a next create. -/
def lateMergeState : ProcessorState :=
  processAll initState "a"
    [(mkReq "e1" 101 100 none none none, "y1"),
     (mkReq "e2" 102 200 none none none, "y2"),
     (mkReq "e3" 105 250 (some 4) (some 1) none, "y3"),
     (mkReq "e4" 101 400 none none none, "y4"),
     (mkReq "e5" 101 300 none none none, "y5")] 1000

/-- Claim C3 (violation): the previous epoch is a_c_100 (created at 100,
destroyed at 200) and the provisional session at ts 250 lies in
[previous_destroy_ts, ts_c) = [200, 300), yet the merge triggered by the
create at 300 relabels it to the id a_c_300 of the newly created epoch — the code
extends the provisional list with the late rows and assigns them all
correct_session_id — rather than to the id a_c_100 of the previous epoch. -/
theorem c3_failing :
    lateMergeState.db.sessions.map
        (fun s => (s.uid, s.joinTime, s.channelSessionId)) =
        [(4, 250, some "a_c_300")] ∧
      lateMergeState.db.events.any
        (fun e => e.eventType == 101 && e.ts == 100) = true ∧
      lateMergeState.db.events.any
        (fun e => e.eventType == 102 && e.ts == 200) = true ∧
      ¬ lateMergeState.db.sessions.map (fun s => s.channelSessionId) =
          [some "a_c_100"] := by
  decide

/-- Scenario: two joins for the same uid; the second hits the clientSeq guard
against a NULL last_client_seq. -/
def firstJoinReq : WebhookRequest := mkReq "n1" 103 100 (some 1) (some 1) none

/-- The retried notification of the failure scenarios. -/
def secondJoinReq : WebhookRequest := mkReq "n2" 103 110 (some 1) (some 2) none

/-- State after the first join commits. -/
def afterFirstJoin : ProcessorState :=
  (processWebhook initState "a" firstJoinReq "w1" 1000).1

/-- State after the second join fails and rolls back. -/
def afterFailedJoin : ProcessorState :=
  (processWebhook afterFirstJoin "a" secondJoinReq "w2" 1000).1

/-- Claim C4 (counterexample): processing the second join fails after its
notice_id n2 entered the memo; the store rollback leaves no row for n2, yet n2
stays in the memo, so the retry carrying the same notice_id is classified as a
duplicate of state that was never committed. -/
theorem c4_counterexample :
    (processWebhook afterFirstJoin "a" secondJoinReq "w2" 1000).2 =
        ProcessResult.failed ∧
      "n2" ∈ afterFailedJoin.recentNoticeIds ∧
      afterFailedJoin.db.events.all (fun e => !(e.noticeId == "n2")) = true ∧
      afterFailedJoin.db = afterFirstJoin.db ∧
      (processWebhook afterFailedJoin "a" secondJoinReq "w2" 1000).2 =
        ProcessResult.duplicate := by
  decide

/-- Claim C6 (violation): the session created by the first join has
last_client_seq NULL (the assignment runs only on the existing-session path),
so the guard of the second join compares an int against NULL and raises
TypeError instead of being well-defined; the ingest fails. -/
theorem c6_failing :
    afterFirstJoin.db.sessions.map (fun s => (s.leaveTime, s.lastClientSeq)) =
        [(none, none)] ∧
      (processWebhook afterFirstJoin "a" secondJoinReq "w2" 1000).2 =
        ProcessResult.failed := by
  decide

/-- Insertion order of ten notice ids filling the cache to capacity. -/
def cacheInsertionOrder : List String :=
  ["a0", "a1", "a2", "a3", "a4", "a5", "a6", "a7", "a8", "a9"]

/-- An admissible iteration order of the same ten-element set (Python sets do
not expose insertion order). -/
def cacheIterOrder : List String :=
  ["a5", "a0", "a1", "a2", "a3", "a4", "a6", "a7", "a8", "a9"]

/-- Claim C5 (violation): with the set at its capacity of ten, _add_to_cache
removes list(set)[0] — the head of the iteration order of the set.  Under the
exhibited iteration order of the very set built by inserting a0..a9 in that
order, the evicted element is a5 while the oldest entry a0 survives, so
eviction is not FIFO; the size bound itself holds (the result again has ten
entries). -/
theorem c5_failing :
    (cacheIterOrder : Multiset String) = (cacheInsertionOrder : Multiset String) ∧
      cacheIterOrder.length = maxCacheSize ∧
      cacheInsertionOrder.head? = some "a0" ∧
      addToCache cacheIterOrder "b0" =
        ["a0", "a1", "a2", "a3", "a4", "a6", "a7", "a8", "a9", "b0"] ∧
      (addToCache cacheIterOrder "b0").contains "a0" = true ∧
      (addToCache cacheIterOrder "b0").contains "a5" = false ∧
      (addToCache cacheIterOrder "b0").length = maxCacheSize := by
  decide

/-- Python `x or 0` agrees with `Option.getD 0` on optional ints. -/
theorem pyIntOr0_eq_getD (o : Option Int) : pyIntOr0 o = o.getD 0 := by
  cases o with
  | none => rfl
  | some v =>
    simp only [pyIntOr0, Option.getD_some]
    split
    · next h => exact (eq_of_beq h).symm
    · rfl

/-- Claim C10: the uid and client_seq columns of the stored raw-event row are the
payload values defaulted to 0 (never NULL), and a notification whose payload
omits uid (resp. clientSeq) produces a row identical to one reporting uid 0
(resp. clientSeq 0) given the same raw body. -/
theorem c10_uid_clientseq_default (app : String) (w : WebhookRequest)
    (raw : String) (csid : Option String) :
    (mkWebhookEvent app w raw csid).uid = (w.payload.uid).getD 0 ∧
      (mkWebhookEvent app w raw csid).clientSeq = (w.payload.clientSeq).getD 0 ∧
      mkWebhookEvent app { w with payload := { w.payload with uid := none } } raw csid =
        mkWebhookEvent app { w with payload := { w.payload with uid := some 0 } } raw csid ∧
      mkWebhookEvent app { w with payload := { w.payload with clientSeq := none } } raw csid =
        mkWebhookEvent app { w with payload := { w.payload with clientSeq := some 0 } } raw csid :=
  ⟨pyIntOr0_eq_getD _, pyIntOr0_eq_getD _, rfl, rfl⟩

/-- The id just added by _add_to_cache is in the cache. -/
theorem addToCache_self_mem (cache : List String) (nid : String) :
    nid ∈ addToCache cache nid := by
  unfold addToCache
  by_cases h : (if maxCacheSize ≤ cache.length then cache.tail else cache).contains nid
  · simp only [h, if_true]
    exact List.mem_of_elem_eq_true h
  · simp only [h, if_false]
    simp

/-- On a non-duplicate call the resulting memo is exactly the old memo with
the notice id added, whether the call commits or fails. -/
theorem processWebhook_cache (st : ProcessorState) (app : String)
    (w : WebhookRequest) (raw : String) (now : Int)
    (hd : ¬ isDuplicateWebhook st w.noticeId = true) :
    (processWebhook st app w raw now).1.recentNoticeIds =
      addToCache st.recentNoticeIds w.noticeId := by
  unfold processWebhook
  rw [if_neg hd]
  dsimp only
  split <;> rfl

/-- Claim C4 (amended): if processing a notification fails after its notice_id
entered the memo, the store is rolled back — when the call committed nothing
mid-way (no provisional merge commit), the resulting store is exactly the
entry store — but the notice_id is NOT removed from the memo, so a retry
carrying the same notice_id is classified as a duplicate (of uncommitted
state) and changes nothing. -/
theorem c4_amended (st : ProcessorState) (app : String) (w : WebhookRequest)
    (raw : String) (now : Int)
    (h : (processWebhook st app w raw now).2 = ProcessResult.failed)
    (hnc : (getCsidForEvent st.db st.activeChannelSessions app w now).2.2.2 = false) :
    (processWebhook st app w raw now).1.db = st.db ∧
      w.noticeId ∈ (processWebhook st app w raw now).1.recentNoticeIds ∧
      processWebhook (processWebhook st app w raw now).1 app w raw now =
        ((processWebhook st app w raw now).1, ProcessResult.duplicate) := by
  by_cases hd : isDuplicateWebhook st w.noticeId = true
  · rw [processWebhook, if_pos hd] at h
    exact absurd (congrArg id h) (by simp)
  · have hcache := processWebhook_cache st app w raw now hd
    have hmem : w.noticeId ∈ (processWebhook st app w raw now).1.recentNoticeIds := by
      rw [hcache]; exact addToCache_self_mem _ _
    have hdup2 : isDuplicateWebhook (processWebhook st app w raw now).1 w.noticeId = true := by
      unfold isDuplicateWebhook
      rw [Bool.or_eq_true]
      exact Or.inl (List.elem_eq_true_of_mem hmem)
    refine ⟨?_, hmem, ?_⟩
    · unfold processWebhook at h ⊢
      rw [if_neg hd] at h ⊢
      dsimp only at h ⊢
      split
      · next db3 heq =>
        rw [heq] at h
        exact absurd h (by simp)
      · next a heq =>
        simp [hnc]
    · rw [processWebhook, if_pos hdup2]

/-- Witness for c4_amended: the failed second join of the concrete scenario
satisfies its hypotheses, and the rollback/memo/duplicate conclusions hold
there. -/
theorem c4_amended_witness :
    ((processWebhook afterFirstJoin "a" secondJoinReq "w2" 1000).2 =
          ProcessResult.failed ∧
        (getCsidForEvent afterFirstJoin.db afterFirstJoin.activeChannelSessions
            "a" secondJoinReq 1000).2.2.2 = false) ∧
      ((processWebhook afterFirstJoin "a" secondJoinReq "w2" 1000).1.db =
          afterFirstJoin.db ∧
        secondJoinReq.noticeId ∈
          (processWebhook afterFirstJoin "a" secondJoinReq "w2" 1000).1.recentNoticeIds ∧
        processWebhook (processWebhook afterFirstJoin "a" secondJoinReq "w2" 1000).1
            "a" secondJoinReq "w2" 1000 =
          ((processWebhook afterFirstJoin "a" secondJoinReq "w2" 1000).1,
            ProcessResult.duplicate)) :=
  ⟨⟨by decide, by decide⟩,
    c4_amended afterFirstJoin "a" secondJoinReq "w2" 1000 (by decide) (by decide)⟩

/-! ## C9: role-change effect and frame -/

/-- Reading back an updated index. -/
theorem updateAt_get?_self {α : Type} (l : List α) (i : Nat) (f : α → α) (x : α)
    (h : l.get? i = some x) : (updateAt l i f).get? i = some (f x) := by
  unfold updateAt
  rw [h, List.get?_set, if_pos rfl, h]
  rfl

/-- Reading back any other index. -/
theorem updateAt_get?_ne {α : Type} (l : List α) (i : Nat) (f : α → α) (j : Nat)
    (h : j ≠ i) : (updateAt l i f).get? j = l.get? j := by
  unfold updateAt
  cases hx : l.get? i with
  | none => rfl
  | some x =>
    rw [List.get?_set, if_neg (fun hij => h hij.symm)]

/-- updateAt preserves length. -/
theorem updateAt_length {α : Type} (l : List α) (i : Nat) (f : α → α) :
    (updateAt l i f).length = l.length := by
  unfold updateAt
  cases hx : l.get? i with
  | none => rfl
  | some x => exact List.length_set l i (f x)

/-- Claim C9: handling a role-change notification leaves the raw-event log
alone and appends exactly one role-event row (epoch, uid, ts, new_role = the
event code); the session table keeps its length, every row keeps
communication_mode and all fields other than is_host/role_switches, a changed
row has is_host = (event == 111) and role_switches incremented by one, the row
the epoch-first-then-channel+uid lookup finds is updated exactly so, and with
no open match the session table is untouched. -/
theorem c9_role_change_frame (db : DB) (app : String) (w : WebhookRequest)
    (csid : Option String) :
    (handleRoleChange db app w csid).events = db.events ∧
      (handleRoleChange db app w csid).roleEvents = db.roleEvents ++
        [{ appId := app, channelName := w.payload.channelName,
           channelSessionId := csid, uid := (w.payload.uid).getD 0,
           ts := w.payload.ts, newRole := w.eventType }] ∧
      (handleRoleChange db app w csid).sessions.length = db.sessions.length ∧
      (∀ i s s2, db.sessions.get? i = some s →
        (handleRoleChange db app w csid).sessions.get? i = some s2 →
        s2.communicationMode = s.communicationMode ∧
          s2.joinTime = s.joinTime ∧ s2.leaveTime = s.leaveTime ∧
          s2.durationSeconds = s.durationSeconds ∧ s2.appId = s.appId ∧
          s2.channelName = s.channelName ∧ s2.uid = s.uid ∧
          s2.channelSessionId = s.channelSessionId ∧ s2.sid = s.sid ∧
          s2.lastClientSeq = s.lastClientSeq ∧ s2.productId = s.productId ∧
          s2.platform = s.platform ∧ s2.reason = s.reason ∧
          s2.clientType = s.clientType ∧ s2.account = s.account ∧
          (s2 = s ∨ (s2.isHost = (w.eventType == 111) ∧
            s2.roleSwitches = s.roleSwitches + 1))) ∧
      (∀ i s, roleTargetIdx { db with roleEvents := db.roleEvents ++
            [{ appId := app, channelName := w.payload.channelName,
               channelSessionId := csid, uid := (w.payload.uid).getD 0,
               ts := w.payload.ts, newRole := w.eventType }] }
            app w.payload.channelName csid ((w.payload.uid).getD 0) = some i →
        db.sessions.get? i = some s →
        (handleRoleChange db app w csid).sessions.get? i =
          some { s with isHost := (w.eventType == 111),
                        roleSwitches := s.roleSwitches + 1 }) ∧
      (roleTargetIdx { db with roleEvents := db.roleEvents ++
            [{ appId := app, channelName := w.payload.channelName,
               channelSessionId := csid, uid := (w.payload.uid).getD 0,
               ts := w.payload.ts, newRole := w.eventType }] }
            app w.payload.channelName csid ((w.payload.uid).getD 0) = none →
        (handleRoleChange db app w csid).sessions = db.sessions) := by
  unfold handleRoleChange
  dsimp only
  cases hidx : roleTargetIdx { db with roleEvents := db.roleEvents ++
      [{ appId := app, channelName := w.payload.channelName,
         channelSessionId := csid, uid := (w.payload.uid).getD 0,
         ts := w.payload.ts, newRole := w.eventType }] }
      app w.payload.channelName csid ((w.payload.uid).getD 0) with
  | none =>
    refine ⟨rfl, rfl, rfl, ?_, ?_, fun _ => rfl⟩
    · intro i s s2 hs hs2
      rw [hs] at hs2
      cases hs2
      exact ⟨rfl, rfl, rfl, rfl, rfl, rfl, rfl, rfl, rfl, rfl, rfl, rfl, rfl,
        rfl, rfl, Or.inl rfl⟩
    · intro i s hsome
      exact absurd hsome (by simp)
  | some k =>
    refine ⟨rfl, rfl, updateAt_length _ _ _, ?_, ?_, ?_⟩
    · intro i s s2 hs hs2
      by_cases hik : i = k
      · subst hik
        rw [updateAt_get?_self _ _ _ s hs] at hs2
        cases hs2
        exact ⟨rfl, rfl, rfl, rfl, rfl, rfl, rfl, rfl, rfl, rfl, rfl, rfl, rfl,
          rfl, rfl, Or.inr ⟨rfl, rfl⟩⟩
      · rw [updateAt_get?_ne _ _ _ _ hik, hs] at hs2
        cases hs2
        exact ⟨rfl, rfl, rfl, rfl, rfl, rfl, rfl, rfl, rfl, rfl, rfl, rfl, rfl,
          rfl, rfl, Or.inl rfl⟩
    · intro i s hsome hs
      have hik : i = k := (Option.some.inj hsome).symm
      subst hik
      exact updateAt_get?_self _ _ _ s hs
    · intro hnone
      exact absurd hnone (by simp)

/-- A demonstration store for the C9 witness: one open session. -/
def c9DemoSession : ChannelSession :=
  { appId := "a"
    channelName := "c"
    uid := 1
    channelSessionId := some "a_c_100"
    sid := none
    joinTime := 100
    leaveTime := none
    durationSeconds := none
    lastClientSeq := some 1
    productId := some 1
    platform := some 1
    reason := some 1
    clientType := none
    communicationMode := some 0
    roleSwitches := 0
    isHost := true
    account := none }

/-- Demonstration store for the C9 witness. -/
def c9DemoDB : DB :=
  { events := [], sessions := [c9DemoSession], roleEvents := [] }

/-- A role-change-to-audience notification for the C9 witness. -/
def c9DemoReq : WebhookRequest := mkReq "rc1" 112 150 (some 1) (some 2) none

/-- Witness for c9_role_change_frame: at a concrete store with one open
session, the positive branch applies — the session at index 0 is updated to
is_host = false with role_switches bumped. -/
theorem c9_role_change_frame_witness :
    (handleRoleChange c9DemoDB "a" c9DemoReq (some "a_c_100")).sessions.get? 0 =
      some { c9DemoSession with isHost := (c9DemoReq.eventType == 111),
                                roleSwitches := c9DemoSession.roleSwitches + 1 } :=
  (c9_role_change_frame c9DemoDB "a" c9DemoReq (some "a_c_100")).2.2.2.2.1
    0 c9DemoSession (by decide) (by decide)

/-! ## C7: role-minute conservation -/

/-- The segment walk telescopes: whatever the role at each step, the two
buckets together grow by exactly the span from `lastTs` to `leaveTs`. -/
theorem walkSegments_sum (leaveTs : Int) (evts : List RoleEvent) :
    ∀ (lastTs : Int) (curHost : Bool) (acc : ℚ × ℚ),
      lastTs ≤ leaveTs → (∀ re ∈ evts, re.ts ≤ leaveTs) →
      (walkSegments leaveTs evts lastTs curHost acc).1 +
          (walkSegments leaveTs evts lastTs curHost acc).2 =
        acc.1 + acc.2 + ((leaveTs - lastTs : Int) : ℚ) / 60 := by
  induction evts with
  | nil =>
    intro lastTs curHost acc hle _
    simp only [walkSegments]
    by_cases h : lastTs < leaveTs
    · rw [if_pos h]
      cases curHost <;> dsimp <;> push_cast <;> ring
    · have hts : lastTs = leaveTs := le_antisymm hle (not_lt.mp h)
      subst hts
      rw [if_neg h]
      simp
  | cons re rest ih =>
    intro lastTs curHost acc hle hall
    have hre : re.ts ≤ leaveTs := hall re (List.mem_cons_self re rest)
    have hrest : ∀ x ∈ rest, x.ts ≤ leaveTs := fun x hx =>
      hall x (List.mem_cons_of_mem re hx)
    simp only [walkSegments]
    by_cases h : lastTs < re.ts
    · rw [if_pos h]
      dsimp only
      rw [ih re.ts (re.newRole == 111) _ hre hrest]
      cases curHost <;> dsimp <;> push_cast <;> ring
    · rw [if_neg h]
      dsimp only
      rw [ih lastTs (re.newRole == 111) acc hle hrest]

/-- The host and audience minutes of one closed session sum to its span over 60,
whatever the initial-role inference decides. -/
theorem sessionRoleMinutes_sum (dbEvents : Option (List WebhookEvent))
    (csid : String) (ure : List RoleEvent) (s : ChannelSession) (lt : Int)
    (hleave : s.leaveTime = some lt) (hjoin : s.joinTime ≤ lt)
    (hdur : s.durationSeconds = some (lt - s.joinTime)) :
    (sessionRoleMinutes dbEvents csid ure s).1 +
        (sessionRoleMinutes dbEvents csid ure s).2 =
      ((lt - s.joinTime : Int) : ℚ) / 60 := by
  unfold sessionRoleMinutes
  rw [hleave]
  dsimp only
  by_cases hemp :
      (ure.filter (fun re => decide (s.joinTime ≤ re.ts) && decide (re.ts ≤ lt))).isEmpty
  · rw [if_pos hemp]
    rw [hdur]
    have hp : pyIntOr0 (some (lt - s.joinTime)) = lt - s.joinTime := by
      rw [pyIntOr0_eq_getD]; rfl
    rw [hp]
    cases initialRoleIsHost dbEvents s csid s.joinTime
        (ure.filter (fun re => decide (s.joinTime ≤ re.ts) && decide (re.ts ≤ lt))) <;>
      simp
  · rw [if_neg hemp]
    rw [walkSegments_sum lt _ s.joinTime _ (0, 0) hjoin ?_]
    · simp
    · intro re hre
      have := List.of_mem_filter hre
      exact of_decide_eq_true (Bool.and_elim_right this)

/-- Claim C7: for a closed session whose duration_seconds equals
leave − join (as the leave handler records), role-interval attribution
conserves time: host_minutes + audience_minutes = duration_seconds / 60,
whatever role events fall inside the session and whatever initial role is
inferred. -/
theorem c7_role_minute_conservation (s : ChannelSession)
    (roleEvents : List RoleEvent) (csid : String)
    (dbEvents : Option (List WebhookEvent)) (lt : Int)
    (hleave : s.leaveTime = some lt) (hjoin : s.joinTime ≤ lt)
    (hdur : s.durationSeconds = some (lt - s.joinTime)) :
    (calculateRoleMinutesFromEvents [s] roleEvents csid dbEvents).1 +
        (calculateRoleMinutesFromEvents [s] roleEvents csid dbEvents).2 =
      (((s.durationSeconds).getD 0 : Int) : ℚ) / 60 := by
  have hu : uidsInOrder [s] = [s.uid] := rfl
  unfold calculateRoleMinutesFromEvents
  rw [hu]
  simp only [List.foldl, List.filter, beq_self_eq_true, ite_true]
  rw [hdur]
  simp only [Option.getD_some]
  have := sessionRoleMinutes_sum dbEvents csid
    (sortRoleEventsByTs (roleEvents.filter
      (fun re => re.uid == s.uid && re.channelSessionId == some csid)))
    s lt hleave hjoin hdur
  simpa using this

/-! ## C8: max concurrency -/

/-- A bare closed session for the concurrency theorems. -/
def mkConcSession (uid : Int) (jt : Int) (lt : Option Int) : ChannelSession :=
  { appId := "a"
    channelName := "c"
    uid := uid
    channelSessionId := some "cs"
    sid := none
    joinTime := jt
    leaveTime := lt
    durationSeconds := none
    lastClientSeq := none
    productId := none
    platform := none
    reason := none
    clientType := none
    communicationMode := some 0
    roleSwitches := 0
    isHost := false
    account := none }

/-- Two overlapping sessions of the same uid. -/
def c8SameUid : List ChannelSession :=
  [mkConcSession 7 0 (some 100), mkConcSession 7 50 (some 150)]

/-- Two sessions of distinct uids with a leave and a join at the same ts,
listed with the later session first. -/
def c8TieOrder : List ChannelSession :=
  [mkConcSession 2 100 (some 200), mkConcSession 1 0 (some 100)]

/-- Claim C8 (counterexample): the sweep counts distinct uids through a set,
so two concurrent sessions of uid 7 yield a curve value 1 at ts 50 where
|{sessions : join ≤ 50 < leave}| = 2 and a max of 1 instead of 2; and the sort
breaks ties by input order, not leaves-before-joins, so with the sessions
listed later-first the curve records 2 at ts 100 where
|{sessions : join ≤ 100 < leave}| = 1, and the returned max is the transient
2. -/
theorem c8_counterexample :
    (calculateMaxConcurrency c8SameUid).1 = 1 ∧
      specConcurrencyCount c8SameUid 50 = 2 ∧
      (50, 1) ∈ (calculateMaxConcurrency c8SameUid).2.2 ∧
      (calculateMaxConcurrency c8TieOrder).1 = 2 ∧
      specConcurrencyCount c8TieOrder 100 = 1 ∧
      (100, 2) ∈ (calculateMaxConcurrency c8TieOrder).2.2 := by
  decide

/-- Timestamp projection of a sweep event. -/
def evTs (e : Bool × Int × Int) : Int := e.2.1

/-- The join event a session contributes. -/
def joinEv (s : ChannelSession) : Bool × Int × Int := (true, s.joinTime, s.uid)

/-- The leave event a closed session contributes. -/
def leaveEv (s : ChannelSession) (lt : Int) : Bool × Int × Int := (false, lt, s.uid)

/-- The foldl of concEvents is the per-session event lists concatenated. -/
theorem concEvents_eq_bind (ss : List ChannelSession) :
    concEvents ss = ss.bind concEventsOf := by
  suffices h : ∀ acc, ss.foldl
      (fun acc s =>
        let acc1 := acc ++ [(true, s.joinTime, s.uid)]
        match s.leaveTime with
        | some lt => acc1 ++ [(false, lt, s.uid)]
        | none => acc1) acc = acc ++ ss.bind concEventsOf by
    simpa [concEvents] using h []
  induction ss with
  | nil => intro acc; simp
  | cons s ss ih =>
    intro acc
    simp only [List.foldl, List.cons_bind]
    rw [ih]
    cases h : s.leaveTime <;> simp [concEventsOf, h, List.append_assoc]

/-- Membership in the event list of one session. -/
theorem mem_concEventsOf {e : Bool × Int × Int} {s : ChannelSession} :
    e ∈ concEventsOf s ↔
      e = joinEv s ∨ ∃ lt, s.leaveTime = some lt ∧ e = leaveEv s lt := by
  unfold concEventsOf joinEv leaveEv
  cases h : s.leaveTime <;> simp [h]

/-- Membership in the full event list. -/
theorem mem_concEvents {e : Bool × Int × Int} {ss : List ChannelSession} :
    e ∈ concEvents ss ↔ ∃ s ∈ ss, e ∈ concEventsOf s := by
  rw [concEvents_eq_bind]
  exact List.mem_bind

/-- The uids currently in the channel after processing a prefix of the event
list: sessions whose join event is in the prefix and whose leave event is
not. -/
def activeSpec (ss : List ChannelSession) (pre : List (Bool × Int × Int)) :
    List Int :=
  (ss.filter (fun s =>
    decide (joinEv s ∈ pre) &&
      !(match s.leaveTime with
        | some lt => decide (leaveEv s lt ∈ pre)
        | none => false))).map (fun s => s.uid)

/-- Toggling a predicate at one element of a nodup list moves that element in
or out of the filtration, up to permutation. -/
theorem filter_perm_cons_of_pointwise {α : Type} [DecidableEq α]
    (l : List α) (hl : l.Nodup) (a : α) (ha : a ∈ l)
    (p q : α → Bool) (hpa : p a = false) (hqa : q a = true)
    (hpq : ∀ x ∈ l, x ≠ a → p x = q x) :
    (l.filter q).Perm (a :: l.filter p) := by
  have h1 : l.Perm (a :: l.erase a) := List.perm_cons_erase ha
  have h2 : (l.filter q).Perm ((a :: l.erase a).filter q) := h1.filter q
  have h3 : (l.erase a).filter q = (l.erase a).filter p := by
    apply List.filter_congr
    intro x hx
    have hxa := hl.mem_erase_iff.mp hx
    exact (hpq x hxa.2 hxa.1).symm
  have h4 : (l.filter p).Perm ((l.erase a).filter p) := by
    have h5 := h1.filter p
    rwa [List.filter_cons_of_neg (by simp [hpa])] at h5
  have h6 : (l.filter q).Perm (a :: (l.erase a).filter q) := by
    rw [← List.filter_cons_of_pos hqa]
    exact h2
  rw [h3] at h6
  exact h6.trans (h4.symm.cons a)

/-- Sessions are uniquely determined by uid when the uid list is nodup. -/
theorem uid_inj {ss : List ChannelSession}
    (huid : (ss.map (fun s => s.uid)).Nodup) :
    ∀ s1 ∈ ss, ∀ s2 ∈ ss, s1.uid = s2.uid → s1 = s2 := by
  intro s1 h1 s2 h2 heq
  exact List.inj_on_of_nodup_map huid h1 h2 heq

/-- Appending a foreign element does not change membership tests. -/
theorem decide_mem_congr {α : Type} [BEq α] [LawfulBEq α] {x a : α} (l : List α)
    (hne : x ≠ a) : decide (x ∈ l ++ [a]) = decide (x ∈ l) := by
  apply decide_eq_decide.mpr
  simp [List.mem_append, hne]

/-- One sweep transition preserves the active-set invariant: processing event
`e` turns a list permuting activeSpec of the prefix into one permuting
activeSpec of the extended prefix. -/
theorem activeSpec_step (ss : List ChannelSession)
    (hclosed : ∀ s ∈ ss, (s.leaveTime).isSome = true)
    (horder : ∀ s ∈ ss, ∀ lt, s.leaveTime = some lt → s.joinTime < lt)
    (huid : (ss.map (fun s => s.uid)).Nodup)
    (es pre suf2 : List (Bool × Int × Int)) (e : Bool × Int × Int)
    (hsplit : es = pre ++ e :: suf2)
    (hperm : es.Perm (concEvents ss))
    (hsorted : es.Pairwise (fun a b => a.2.1 < b.2.1))
    (active : List Int) (hact : active.Perm (activeSpec ss pre)) :
    (if e.1 then (if active.contains e.2.2 then active else active ++ [e.2.2])
      else active.erase e.2.2).Perm (activeSpec ss (pre ++ [e])) := by
  have ssnd : ss.Nodup := huid.of_map
  have hinj := uid_inj huid
  have hnd : es.Nodup :=
    hsorted.imp (fun {a b} h heq => absurd (heq ▸ h) (lt_irrefl b.2.1))
  have hepre : e ∉ pre := by
    have hnd2 := hnd
    rw [hsplit] at hnd2
    have hdisj := (List.nodup_append.mp hnd2).2.2
    intro hin
    exact hdisj hin (List.mem_cons_self _ _)
  have hsortsplit := hsplit ▸ hsorted
  have hpre_lt : ∀ x ∈ pre, x.2.1 < e.2.1 := fun x hx =>
    (List.pairwise_append.mp hsortsplit).2.2 x hx e (List.mem_cons_self _ _)
  have hsuf_gt : ∀ x ∈ suf2, e.2.1 < x.2.1 :=
    (List.pairwise_cons.mp (List.pairwise_append.mp hsortsplit).2.1).1
  have hes : e ∈ es := by
    rw [hsplit]; exact List.mem_append_right _ (List.mem_cons_self _ _)
  obtain ⟨s0, hs0, hin0⟩ := mem_concEvents.mp (hperm.mem_iff.mp hes)
  rcases mem_concEventsOf.mp hin0 with he | ⟨lt0, hso, he⟩
  · -- join event of s0
    obtain ⟨lt0, hso⟩ := Option.isSome_iff_exists.mp (hclosed s0 hs0)
    have hjlt : s0.joinTime < lt0 := horder s0 hs0 lt0 hso
    subst he
    dsimp only [joinEv]
    rw [if_pos rfl]
    have hnotmem : s0.uid ∉ active := by
      intro hmem
      obtain ⟨s1, hs1f, hs1u⟩ := List.mem_map.mp (hact.mem_iff.mp hmem)
      have hs1 := List.mem_filter.mp hs1f
      have hjoin1 : joinEv s1 ∈ pre :=
        of_decide_eq_true (Bool.and_elim_left hs1.2)
      have he1 : s1 = s0 := hinj s1 hs1.1 s0 hs0 hs1u
      exact hepre (by dsimp only [joinEv]; exact he1 ▸ hjoin1)
    have hcont : active.contains s0.uid = false := by
      cases hc : active.contains s0.uid
      · rfl
      · exact absurd (List.mem_of_elem_eq_true hc) hnotmem
    rw [if_neg (by rw [hcont]; exact Bool.false_ne_true)]
    have hleave_notin : leaveEv s0 lt0 ∉ pre ++ [joinEv s0] := by
      intro hin
      rcases List.mem_append.mp hin with h | h
      · have := hpre_lt _ h
        dsimp only [joinEv, leaveEv] at this
        exact absurd hjlt (not_lt.mpr (le_of_lt this))
      · rcases List.mem_cons.mp h with h | h
        · exact absurd (congrArg Prod.fst h) (by simp [joinEv, leaveEv])
        · exact absurd h (List.not_mem_nil _)
    have key : (activeSpec ss (pre ++ [joinEv s0])).Perm (s0.uid :: activeSpec ss pre) := by
      unfold activeSpec
      have hperm2 := filter_perm_cons_of_pointwise ss ssnd s0 hs0
        (fun s => decide (joinEv s ∈ pre) &&
          !(match s.leaveTime with
            | some lt => decide (leaveEv s lt ∈ pre)
            | none => false))
        (fun s => decide (joinEv s ∈ pre ++ [joinEv s0]) &&
          !(match s.leaveTime with
            | some lt => decide (leaveEv s lt ∈ pre ++ [joinEv s0])
            | none => false))
        (by
          dsimp only
          rw [decide_eq_false hepre, Bool.false_and])
        (by
          dsimp only
          rw [hso]
          dsimp only
          rw [decide_eq_true (List.mem_append_right _ (List.mem_cons_self _ _))]
          rw [decide_eq_false hleave_notin]
          rfl)
        (by
          intro x hx hxs0
          have hjne : joinEv x ≠ joinEv s0 := by
            intro hj
            exact hxs0 (hinj x hx s0 hs0 (congrArg (fun z => z.2.2) hj))
          dsimp only
          rw [decide_mem_congr pre hjne]
          cases hxl : x.leaveTime with
          | none => rfl
          | some lt =>
            dsimp only
            have hlne : leaveEv x lt ≠ joinEv s0 := by
              intro hj
              exact absurd (congrArg Prod.fst hj) (by simp [joinEv, leaveEv])
            rw [decide_mem_congr pre hlne])
      exact hperm2.map (fun s => s.uid)
    exact (List.perm_append_singleton _ _).trans ((hact.cons _).trans key.symm)
  · -- leave event of s0
    have hjlt : s0.joinTime < lt0 := horder s0 hs0 lt0 hso
    subst he
    dsimp only [leaveEv]
    rw [if_neg (by exact Bool.false_ne_true)]
    have hjoin_pre : joinEv s0 ∈ pre := by
      have hjes : joinEv s0 ∈ es :=
        hperm.mem_iff.mpr (mem_concEvents.mpr ⟨s0, hs0, mem_concEventsOf.mpr (Or.inl rfl)⟩)
      rw [hsplit] at hjes
      rcases List.mem_append.mp hjes with h | h
      · exact h
      · rcases List.mem_cons.mp h with h | h
        · exact absurd (congrArg Prod.fst h) (by simp [joinEv, leaveEv])
        · have := hsuf_gt _ h
          dsimp only [joinEv, leaveEv] at this
          exact absurd hjlt (not_lt.mpr (le_of_lt this))
    have hqs0 : (fun s => decide (joinEv s ∈ pre) &&
        !(match s.leaveTime with
          | some lt => decide (leaveEv s lt ∈ pre)
          | none => false)) s0 = true := by
      dsimp only
      rw [hso]
      dsimp only
      rw [decide_eq_true hjoin_pre, decide_eq_false hepre]
      rfl
    have hmem_active : s0.uid ∈ active := by
      apply hact.mem_iff.mpr
      exact List.mem_map.mpr ⟨s0, List.mem_filter.mpr ⟨hs0, hqs0⟩, rfl⟩
    have key2 : (activeSpec ss pre).Perm
        (s0.uid :: activeSpec ss (pre ++ [leaveEv s0 lt0])) := by
      unfold activeSpec
      have hperm2 := filter_perm_cons_of_pointwise ss ssnd s0 hs0
        (fun s => decide (joinEv s ∈ pre ++ [leaveEv s0 lt0]) &&
          !(match s.leaveTime with
            | some lt => decide (leaveEv s lt ∈ pre ++ [leaveEv s0 lt0])
            | none => false))
        (fun s => decide (joinEv s ∈ pre) &&
          !(match s.leaveTime with
            | some lt => decide (leaveEv s lt ∈ pre)
            | none => false))
        (by
          dsimp only
          rw [hso]
          dsimp only
          rw [decide_eq_true (List.mem_append_right _ (List.mem_cons_self _ _))]
          exact Bool.and_false _)
        hqs0
        (by
          intro x hx hxs0
          have hjne : joinEv x ≠ leaveEv s0 lt0 := by
            intro hj
            exact absurd (congrArg Prod.fst hj) (by simp [joinEv, leaveEv])
          dsimp only
          rw [decide_mem_congr pre hjne]
          cases hxl : x.leaveTime with
          | none => rfl
          | some lt =>
            dsimp only
            have hlne : leaveEv x lt ≠ leaveEv s0 lt0 := by
              intro hj
              exact hxs0 (hinj x hx s0 hs0 (congrArg (fun z => z.2.2) hj))
            rw [decide_mem_congr pre hlne])
      exact hperm2.map (fun s => s.uid)
    have e1 : (active.erase s0.uid).Perm ((activeSpec ss pre).erase s0.uid) :=
      hact.erase s0.uid
    have e2 : ((activeSpec ss pre).erase s0.uid).Perm
        ((s0.uid :: activeSpec ss (pre ++ [leaveEv s0 lt0])).erase s0.uid) :=
      key2.erase s0.uid
    rw [List.erase_cons_head] at e2
    exact e1.trans e2

/-- After processing all events up to and including `e`, the active set size
is the number of sessions whose interval contains the timestamp of e. -/
theorem activeSpec_count (ss : List ChannelSession)
    (hclosed : ∀ s ∈ ss, (s.leaveTime).isSome = true)
    (es pre suf2 : List (Bool × Int × Int)) (e : Bool × Int × Int)
    (hsplit : es = pre ++ e :: suf2)
    (hperm : es.Perm (concEvents ss))
    (hsorted : es.Pairwise (fun a b => a.2.1 < b.2.1)) :
    (activeSpec ss (pre ++ [e])).length = specConcurrencyCount ss e.2.1 := by
  have hsortsplit := hsplit ▸ hsorted
  have hpre_lt : ∀ x ∈ pre, x.2.1 < e.2.1 := fun x hx =>
    (List.pairwise_append.mp hsortsplit).2.2 x hx e (List.mem_cons_self _ _)
  have hsuf_gt : ∀ x ∈ suf2, e.2.1 < x.2.1 :=
    (List.pairwise_cons.mp (List.pairwise_append.mp hsortsplit).2.1).1
  have hchar : ∀ x, x ∈ es → (x ∈ pre ++ [e] ↔ x.2.1 ≤ e.2.1) := by
    intro x hx
    constructor
    · intro hin
      rcases List.mem_append.mp hin with h | h
      · exact le_of_lt (hpre_lt x h)
      · rcases List.mem_cons.mp h with h | h
        · exact h ▸ le_refl _
        · exact absurd h (List.not_mem_nil x)
    · intro hle
      rw [hsplit] at hx
      rcases List.mem_append.mp hx with h | h
      · exact List.mem_append_left _ h
      · rcases List.mem_cons.mp h with h | h
        · exact List.mem_append_right _ (h ▸ List.mem_cons_self _ _)
        · exact absurd hle (not_le.mpr (hsuf_gt x h))
  unfold activeSpec specConcurrencyCount
  rw [List.length_map]
  apply congrArg List.length
  apply List.filter_congr
  intro s hs
  have hj : joinEv s ∈ es :=
    hperm.mem_iff.mpr (mem_concEvents.mpr ⟨s, hs, mem_concEventsOf.mpr (Or.inl rfl)⟩)
  obtain ⟨lt, hlt⟩ := Option.isSome_iff_exists.mp (hclosed s hs)
  have hl : leaveEv s lt ∈ es :=
    hperm.mem_iff.mpr
      (mem_concEvents.mpr ⟨s, hs, mem_concEventsOf.mpr (Or.inr ⟨lt, hlt, rfl⟩)⟩)
  rw [hlt]
  dsimp only
  rw [decide_eq_decide.mpr (hchar _ hj)]
  rw [decide_eq_decide.mpr (hchar _ hl)]
  dsimp only [joinEv, leaveEv]
  congr 1
  rw [← decide_not]
  exact decide_eq_decide.mpr not_le

/-- Every curve entry produced by the sweep from a faithful active set records
the specification count at its timestamp. -/
theorem sweep_curve_counts (ss : List ChannelSession)
    (hclosed : ∀ s ∈ ss, (s.leaveTime).isSome = true)
    (horder : ∀ s ∈ ss, ∀ lt, s.leaveTime = some lt → s.joinTime < lt)
    (huid : (ss.map (fun s => s.uid)).Nodup)
    (es : List (Bool × Int × Int))
    (hperm : es.Perm (concEvents ss))
    (hsorted : es.Pairwise (fun a b => a.2.1 < b.2.1)) :
    ∀ (suf pre : List (Bool × Int × Int)) (active : List Int)
      (mx : Nat) (peak : Option Int),
      es = pre ++ suf →
      active.Perm (activeSpec ss pre) →
      ∀ tc ∈ (sweepGo active mx peak suf).2.2,
        tc.2 = specConcurrencyCount ss tc.1 := by
  intro suf
  induction suf with
  | nil =>
    intro pre active mx peak hsplit hact tc htc
    simp [sweepGo] at htc
  | cons e suf2 ih =>
    intro pre active mx peak hsplit hact tc htc
    have hstep := activeSpec_step ss hclosed horder huid es pre suf2 e hsplit
      hperm hsorted active hact
    simp only [sweepGo] at htc
    rcases List.mem_cons.mp htc with h | h
    · have hlen : (if e.1 then
          (if active.contains e.2.2 then active else active ++ [e.2.2])
          else active.erase e.2.2).length =
            specConcurrencyCount ss e.2.1 := by
        rw [hstep.length_eq]
        exact activeSpec_count ss hclosed es pre suf2 e hsplit hperm hsorted
      rw [h]
      exact hlen
    · exact ih (pre ++ [e]) _ _ _ (by rw [hsplit]; simp) hstep tc h

/-- The max/peak contract of the sweep relative to the incoming running
values: every curve entry is bounded by the returned max, and either the max
equals the incoming running max (returned with the incoming peak — so no
entry exceeded it), or it strictly improves on the incoming max, is attained
on the curve, and the returned peak is the timestamp of the earliest curve
entry attaining it (find? locates the first entry reaching the max, and the
bound makes that entry equal to the max). -/
def maxPeakSpec (res : Nat × Option Int × List (Int × Nat)) (mx : Nat)
    (peak : Option Int) : Prop :=
  (∀ tc ∈ res.2.2, tc.2 ≤ res.1) ∧
    ((res.1 = mx ∧ res.2.1 = peak) ∨
      (mx < res.1 ∧ ∃ t, res.2.1 = some t ∧
        res.2.2.find? (fun tc => decide (res.1 ≤ tc.2)) = some (t, res.1)))

/-- One sweep step preserves the max/peak contract. -/
theorem maxPeakSpec_step (rest : List (Bool × Int × Int)) (A : List Int)
    (ts : Int) (mx : Nat) (peak : Option Int)
    (ih : ∀ (mx2 : Nat) (peak2 : Option Int),
      maxPeakSpec (sweepGo A mx2 peak2 rest) mx2 peak2) :
    maxPeakSpec
      ((sweepGo A (if mx < A.length then (A.length, some ts) else (mx, peak)).1
          (if mx < A.length then (A.length, some ts) else (mx, peak)).2 rest).1,
        (sweepGo A (if mx < A.length then (A.length, some ts) else (mx, peak)).1
          (if mx < A.length then (A.length, some ts) else (mx, peak)).2 rest).2.1,
        (ts, A.length) ::
          (sweepGo A (if mx < A.length then (A.length, some ts) else (mx, peak)).1
            (if mx < A.length then (A.length, some ts) else (mx, peak)).2 rest).2.2)
      mx peak := by
  by_cases hmc : mx < A.length
  · rw [if_pos hmc]
    dsimp only
    obtain ⟨hbound, hor⟩ := ih A.length (some ts)
    constructor
    · intro tc htc
      rcases List.mem_cons.mp htc with h | h
      · rw [h]
        rcases hor with ⟨h2, _⟩ | ⟨h2, _⟩
        · exact le_of_eq h2.symm
        · exact le_of_lt h2
      · exact hbound tc h
    · rcases hor with ⟨h2, h3⟩ | ⟨h2, t, h3, h4⟩
      · right
        refine ⟨by rw [h2]; exact hmc, ts, h3, ?_⟩
        rw [List.find?_cons_of_pos _ (by rw [h2]; exact decide_eq_true (le_refl _))]
        rw [h2]
      · right
        refine ⟨lt_trans hmc h2, t, h3, ?_⟩
        rw [List.find?_cons_of_neg _ (by
          simp only [decide_eq_true_eq]
          exact not_le.mpr h2)]
        exact h4
  · rw [if_neg hmc]
    dsimp only
    obtain ⟨hbound, hor⟩ := ih mx peak
    constructor
    · intro tc htc
      rcases List.mem_cons.mp htc with h | h
      · rw [h]
        rcases hor with ⟨h2, _⟩ | ⟨h2, _⟩
        · rw [h2]
          exact not_lt.mp hmc
        · exact le_of_lt (lt_of_le_of_lt (not_lt.mp hmc) h2)
      · exact hbound tc h
    · rcases hor with ⟨h2, h3⟩ | ⟨h2, t, h3, h4⟩
      · exact Or.inl ⟨h2, h3⟩
      · right
        refine ⟨h2, t, h3, ?_⟩
        rw [List.find?_cons_of_neg _ (by
          simp only [decide_eq_true_eq]
          exact not_le.mpr (lt_of_le_of_lt (not_lt.mp hmc) h2))]
        exact h4

/-- The sweep satisfies the max/peak contract. -/
theorem sweepGo_max_peak (evs : List (Bool × Int × Int)) :
    ∀ (active : List Int) (mx : Nat) (peak : Option Int),
      maxPeakSpec (sweepGo active mx peak evs) mx peak := by
  induction evs with
  | nil =>
    intro active mx peak
    exact ⟨fun tc htc => absurd htc (List.not_mem_nil tc), Or.inl ⟨rfl, rfl⟩⟩
  | cons e rest ih =>
    intro active mx peak
    exact maxPeakSpec_step rest
      (if e.1 then (if active.contains e.2.2 then active else active ++ [e.2.2])
        else active.erase e.2.2)
      e.2.1 mx peak (fun mx2 peak2 => ih _ mx2 peak2)

/-- Claim C8 (amended): join/leave events are sorted ascending by ts with
ties kept in generation order (per session join before leave, sessions in
input order), and the sweep counts distinct uids through a set.  When all
sessions are closed with join < leave, uids are pairwise distinct and all
event timestamps are pairwise distinct, every curve entry (ts, c) satisfies
c = |{sessions : join ≤ ts < leave}|, and the returned max/peak satisfy the
sweep contract maxPeakSpec at (0, None): every curve value is at most the
returned max, and either the max is 0 with peak None, or the max is attained
on the curve and the peak is the timestamp of the earliest entry attaining
it — so the returned max is the maximum curve value. -/
theorem c8_amended (sessions : List ChannelSession)
    (hclosed : ∀ s ∈ sessions, (s.leaveTime).isSome = true)
    (horder : ∀ s ∈ sessions, ∀ lt, s.leaveTime = some lt → s.joinTime < lt)
    (huid : (sessions.map (fun s => s.uid)).Nodup)
    (hts : ((concEvents sessions).map (fun e => e.2.1)).Nodup) :
    (∀ tc ∈ (calculateMaxConcurrency sessions).2.2,
        tc.2 = specConcurrencyCount sessions tc.1) ∧
      maxPeakSpec (calculateMaxConcurrency sessions) 0 none := by
  unfold calculateMaxConcurrency
  by_cases h0 : sessions.isEmpty
  · rw [if_pos h0]
    exact ⟨fun tc htc => absurd htc (List.not_mem_nil tc),
      ⟨fun tc htc => absurd htc (List.not_mem_nil tc), Or.inl ⟨rfl, rfl⟩⟩⟩
  · rw [if_neg h0]
    dsimp only
    by_cases h1 : (concEvents sessions).isEmpty
    · rw [if_pos h1]
      exact ⟨fun tc htc => absurd htc (List.not_mem_nil tc),
        ⟨fun tc htc => absurd htc (List.not_mem_nil tc), Or.inl ⟨rfl, rfl⟩⟩⟩
    · rw [if_neg h1]
      haveI instTot : IsTotal (Bool × Int × Int) (fun a b => a.2.1 ≤ b.2.1) :=
        ⟨fun a b => le_total _ _⟩
      haveI instTrans : IsTrans (Bool × Int × Int) (fun a b => a.2.1 ≤ b.2.1) :=
        ⟨fun a b c hab hbc => le_trans hab hbc⟩
      have hperm : (sortConcEvents (concEvents sessions)).Perm (concEvents sessions) :=
        List.perm_insertionSort _ _
      have hs : (sortConcEvents (concEvents sessions)).Pairwise
          (fun a b => a.2.1 ≤ b.2.1) :=
        List.sorted_insertionSort _ _
      have hnodup_ts :
          ((sortConcEvents (concEvents sessions)).map (fun e => e.2.1)).Nodup :=
        (hperm.map (fun e => e.2.1)).nodup_iff.mpr hts
      have hne : (sortConcEvents (concEvents sessions)).Pairwise
          (fun a b => a.2.1 ≠ b.2.1) :=
        List.pairwise_map.mp hnodup_ts
      have hstrict : (sortConcEvents (concEvents sessions)).Pairwise
          (fun a b => a.2.1 < b.2.1) :=
        (hs.and hne).imp (fun {a b} hab => lt_of_le_of_ne hab.1 hab.2)
      have hact0 : ([] : List Int).Perm (activeSpec sessions []) := by
        unfold activeSpec
        rw [List.filter_eq_nil.mpr (fun s hs => by simp)]
        exact List.Perm.nil
      constructor
      · exact sweep_curve_counts sessions hclosed horder huid _ hperm hstrict
          (sortConcEvents (concEvents sessions)) [] [] 0 none rfl hact0
      · exact sweepGo_max_peak _ [] 0 none

/-- Two closed sessions with distinct uids and four distinct timestamps, for
the C8 witness. -/
def c8DemoSessions : List ChannelSession :=
  [mkConcSession 1 10 (some 30), mkConcSession 2 20 (some 40)]

/-- Witness for c8_amended: the hypotheses hold at the concrete two-session
store and the conclusions of the theorem follow there. -/
theorem c8_amended_witness :
    ((∀ s ∈ c8DemoSessions, (s.leaveTime).isSome = true) ∧
        (c8DemoSessions.map (fun s => s.uid)).Nodup ∧
        ((concEvents c8DemoSessions).map (fun e => e.2.1)).Nodup) ∧
      ((∀ tc ∈ (calculateMaxConcurrency c8DemoSessions).2.2,
          tc.2 = specConcurrencyCount c8DemoSessions tc.1) ∧
        maxPeakSpec (calculateMaxConcurrency c8DemoSessions) 0 none) :=
  ⟨⟨by decide, by decide, by decide⟩,
    c8_amended c8DemoSessions (by decide)
      (by
        intro s hs lt hlt
        rcases List.mem_cons.mp hs with heq | hs2
        · subst heq
          cases hlt
          decide
        · rcases List.mem_cons.mp hs2 with heq | hs3
          · subst heq
            cases hlt
            decide
          · exact absurd hs3 (List.not_mem_nil s))
      (by decide) (by decide)⟩

/-- A closed session with a mid-session role event for the C7 witness. -/
def c7DemoSession : ChannelSession :=
  { mkConcSession 7 10 (some 70) with durationSeconds := some 60 }

/-- A role event inside the C7 witness session. -/
def c7DemoRole : RoleEvent :=
  { appId := "a"
    channelName := "c"
    channelSessionId := some "cs"
    uid := 7
    ts := 40
    newRole := 111 }

/-- Witness for c7_role_minute_conservation at a concrete closed session with
one in-session role switch. -/
theorem c7_role_minute_conservation_witness :
    (c7DemoSession.leaveTime = some 70 ∧ c7DemoSession.joinTime ≤ 70 ∧
        c7DemoSession.durationSeconds = some (70 - c7DemoSession.joinTime)) ∧
      (calculateRoleMinutesFromEvents [c7DemoSession] [c7DemoRole] "cs" none).1 +
          (calculateRoleMinutesFromEvents [c7DemoSession] [c7DemoRole] "cs" none).2 =
        (((c7DemoSession.durationSeconds).getD 0 : Int) : ℚ) / 60 :=
  ⟨⟨by decide, by decide, by decide⟩,
    c7_role_minute_conservation c7DemoSession [c7DemoRole] "cs" none 70
      (by decide) (by decide) (by decide)⟩

end Agora
